import Mathlib

/-!
Verification development for the Allure report generation and indexing engine
(`AllureService` in the backend service file, the report catalog controller
`getReportsByProject`, and the dashboard flow `handleImportScriptAndGenerateReport`).

The TypeScript code is shallowly embedded: filesystem state is passed
explicitly, fallible filesystem operations are driven by explicit success
flags in an environment record, `try`/`catch` blocks become `Except` values
with an explicit catch step, and JavaScript timestamps (millisecond numbers)
become `Int`.  ISO timestamp strings carried opaquely by the code are
modelled as optional integers; no claim depends on their textual form.
-/

/-- Entry of a per-project report ledger (`ReportIndexEntry` in the source).
Timestamp fields (`startedAt`, `completedAt`, `createdAt`) are ISO strings in
the source and are modelled as integers; optional fields are `Option`. -/
structure ReportIndexEntry where
  id : String
  projectId : String
  scriptId : Option String
  scriptName : Option String
  status : Option String
  startedAt : Option Int
  completedAt : Option Int
  reportUrl : String
  createdAt : Int
deriving Repr, DecidableEq

/-- Result of `JSON.parse` on a ledger file that parsed successfully:
either an array of entries or some other JSON value. -/
inductive JsonVal where
  | arr (entries : List ReportIndexEntry)
  | other
deriving Repr, DecidableEq

/-- Raw content of a stored ledger file: readable and parsable, readable but
malformed (JSON.parse throws), or unreadable (readFileSync throws). -/
inductive RawContent where
  | parsable (v : JsonVal)
  | malformed
  | unreadable
deriving Repr, DecidableEq

/-- A per-project ledger file on disk: absent, or stored with some raw content. -/
inductive LedgerFile where
  | absent
  | stored (raw : RawContent)
deriving Repr, DecidableEq

/-- Reading the raw text of a stored ledger file (`fs.readFileSync`):
throws on unreadable content. -/
def readRaw : RawContent → Except String RawContent
  | .unreadable => .error "EIO: read failed"
  | r => .ok r

/-- Parsing the raw text (`JSON.parse`): throws on malformed content. -/
def jsonParse : RawContent → Except String JsonVal
  | .parsable v => .ok v
  | _ => .error "SyntaxError: JSON parse failed"

/-- Body of the `try` block of `AllureService.readProjectIndex`: return `[]`
if the file does not exist, otherwise read it, parse it, and return the
parsed value if it is an array, else `[]`.  Read and parse failures escape
as errors, to be absorbed by the surrounding catch. -/
def readProjectIndexTry (f : LedgerFile) : Except String (List ReportIndexEntry) :=
  match f with
  | .absent => .ok []
  | .stored raw =>
    match readRaw raw with
    | .error e => .error e
    | .ok r =>
      match jsonParse r with
      | .error e => .error e
      | .ok (.arr entries) => .ok entries
      | .ok .other => .ok []

/-- `AllureService.readProjectIndex`: the try body with its catch, which logs
a warning and returns `[]` on any failure. -/
def readProjectIndex (f : LedgerFile) : List ReportIndexEntry :=
  match readProjectIndexTry f with
  | .ok entries => entries
  | .error _ => []

/-- Body of the outer `try` block of `AllureService.appendProjectIndexEntry`:
read the current list (inner try/catch: parse errors reset it to `[]`),
de-duplicate by run id, prepend the new entry, then write a temporary file
and atomically rename it over the ledger.  `writeOk` and `renameOk` drive
the two fallible filesystem operations; on their failure the error escapes
to the surrounding catch. -/
def appendProjectIndexEntryTry (writeOk renameOk : Bool) (f : LedgerFile)
    (entry : ReportIndexEntry) : Except String LedgerFile :=
  let current : List ReportIndexEntry :=
    match f with
    | .absent => []
    | .stored raw =>
      match readRaw raw with
      | .error _ => []
      | .ok r =>
        match jsonParse r with
        | .error _ => []
        | .ok (.arr entries) => entries
        | .ok .other => []
  let updated := entry :: current.filter (fun r => r.id ≠ entry.id)
  if writeOk then
    if renameOk then .ok (.stored (.parsable (.arr updated)))
    else .error "EIO: rename failed"
  else .error "EIO: write failed"

/-- `AllureService.appendProjectIndexEntry`: the try body with its outer
catch, which logs the error and leaves the ledger file unchanged. -/
def appendProjectIndexEntry (writeOk renameOk : Bool) (f : LedgerFile)
    (entry : ReportIndexEntry) : LedgerFile :=
  match appendProjectIndexEntryTry writeOk renameOk f entry with
  | .ok f2 => f2
  | .error _ => f

/-- The ledger directory (`ALLURE_REPORTS_DIR/by-project`) as an association
list from project id to ledger file, modelling one `<projectId>.json` file
per project. -/
def LedgerDir := List (String × LedgerFile)

/-- `AllureService.readProjectIndex` addressed through the ledger directory:
a missing association is a non-existent file. -/
def readProjectIndexIn (dir : LedgerDir) (projectId : String) : List ReportIndexEntry :=
  match List.lookup projectId dir with
  | none => []
  | some f => readProjectIndex f

/-- `AllureService.listAllProjectIndexes`: enumerate every ledger file and
read each one. -/
def listAllProjectIndexes (dir : LedgerDir) : List (String × List ReportIndexEntry) :=
  dir.map (fun p => (p.1, readProjectIndex p.2))

/-- One entry of the reports root directory (`ALLURE_REPORTS_DIR`): its name,
its stat modification time in milliseconds, and its stat birth time.  Run
artifact directories and the `by-project` ledger directory are both plain
entries of this root. -/
structure DirEntry where
  name : String
  mtimeMs : Int
  birthtime : Int
deriving Repr, DecidableEq

/-- The on-disk store touched by the retention and enumeration operations:
the raw-result pool (`ALLURE_RESULTS_DIR`, one file per run id) and the
listing of the reports root (`ALLURE_REPORTS_DIR`). -/
structure ReportsStore where
  resultsPool : List String
  reportsRoot : List DirEntry
deriving Repr, DecidableEq

/-- Name of the ledger directory entry inside the reports root. -/
def byProjectDirName : String := "by-project"

/-- `AllureService.cleanupOldReports`: for every entry of the reports root,
remove it (recursively) when `now - mtimeMs > daysToKeep * 24*60*60*1000`.
The raw-result pool is never touched. -/
def cleanupOldReports (now : Int) (daysToKeep : Int) (s : ReportsStore) : ReportsStore :=
  let maxAge := daysToKeep * 24 * 60 * 60 * 1000
  { s with reportsRoot := s.reportsRoot.filter (fun e => !(now - e.mtimeMs > maxAge)) }

/-- `AllureService.getReportUrl`: a URL derived from the run id when the
run's artifact directory exists, the empty string otherwise.
`reportDirExists` is the result of `fs.existsSync` on the artifact path. -/
def getReportUrl (reportDirExists : Bool) (testRunId : String) : String :=
  if reportDirExists then "/allure-reports/" ++ testRunId ++ "/index.html"
  else ""

/-- Caller-facing record returned by `AllureService.getAllReports`. -/
structure ReportRec where
  id : String
  path : String
  createdAt : Int
deriving Repr, DecidableEq

/-- `AllureService.getAllReports`: map every entry of the reports root to a
record; on any I/O failure (`readdirOk = false` models `readdirSync` or
`statSync` throwing) the catch returns `[]`. -/
def getAllReports (readdirOk : Bool) (root : List DirEntry) : List ReportRec :=
  if readdirOk then
    root.map (fun e => ⟨e.name, "/allure-reports/" ++ e.name ++ "/index.html", e.birthtime⟩)
  else []

/-- Boolean list-prefix test used to define substring containment. -/
def isPrefixB : List Char → List Char → Bool
  | [], _ => true
  | _ :: _, [] => false
  | a :: as, b :: bs => a == b && isPrefixB as bs

/-- Boolean list-infix test used to define substring containment. -/
def isInfixB (needle : List Char) : List Char → Bool
  | [] => isPrefixB needle []
  | c :: rest => isPrefixB needle (c :: rest) || isInfixB needle rest

/-- Substring containment on strings, via the underlying character lists. -/
def containsSubstr (needle hay : String) : Bool :=
  isInfixB needle.toList hay.toList

/-- First literal chunk of the basic fallback HTML page written by
`generateReport` when the Allure CLI fails or produced no `index.html`
(everything before the first interpolation of the run id). -/
def basicHtmlA : String :=
"<!DOCTYPE html>\n<html>\n<head>\n  <title>Test Report - "

/-- Second literal chunk of the basic fallback HTML page (between the two
interpolations of the run id); CSS braces are kept verbatim. -/
def basicHtmlB : String :=
"</title>\n  <style>\n    body \x7b font-family: Arial, sans-serif; padding: 20px; background: #f5f5f5; \x7d\n    .container \x7b max-width: 800px; margin: 0 auto; background: white; padding: 30px; border-radius: 8px; box-shadow: 0 2px 4px rgba(0,0,0,0.1); \x7d\n    .header \x7b background: linear-gradient(135deg, #667eea 0%, #764ba2 100%); color: white; padding: 20px; border-radius: 5px; margin-bottom: 20px; \x7d\n    .header h1 \x7b margin: 0; \x7d\n    .info \x7b margin: 20px 0; \x7d\n    .info p \x7b margin: 10px 0; padding: 10px; background: #f9f9f9; border-left: 4px solid #667eea; \x7d\n    .status \x7b display: inline-block; padding: 5px 15px; background: #10b981; color: white; border-radius: 20px; font-weight: bold; \x7d\n  </style>\n</head>\n<body>\n  <div class=\"container\">\n    <div class=\"header\">\n      <h1>Test Execution Report</h1>\n    </div>\n    <div class=\"info\">\n      <p><span class=\"status\">âœ“ Generated</span></p>\n      <p><strong>Test Run ID:</strong> "

/-- Final literal chunk of the basic fallback HTML page, containing the
generic note that the Allure CLI is unavailable. -/
def basicHtmlC : String :=
"</p>\n      <p><strong>Report Type:</strong> Basic HTML Report</p>\n      <p><em>Note: Allure CLI is not available. Install allure-commandline for full Allure reports.</em></p>\n    </div>\n  </div>\n</body>\n</html>"

/-- The basic fallback HTML page written as `index.html` when the Allure CLI
invocation fails or leaves no `index.html` (the template at the
`useBasicReport` branch of `generateReport`). -/
def basicHtml (testRunId : String) : String :=
  basicHtmlA ++ testRunId ++ basicHtmlB ++ testRunId ++ basicHtmlC

/-- First literal chunk of the error HTML page written by the outer catch of
`generateReport`. -/
def errorHtmlA : String :=
"<!DOCTYPE html>\n<html>\n<head>\n  <title>Test Report - "

/-- Second literal chunk of the error HTML page (between the run id in the
title and the interpolated error message). -/
def errorHtmlB : String :=
"</title>\n  <style>\n    body \x7b font-family: Arial, sans-serif; padding: 20px; \x7d\n    .container \x7b max-width: 800px; margin: 0 auto; background: white; padding: 30px; border-radius: 8px; \x7d\n    .header \x7b background: #667eea; color: white; padding: 20px; border-radius: 5px; \x7d\n    .error \x7b color: #ef4444; padding: 10px; background: #fee2e2; border-radius: 5px; \x7d\n  </style>\n</head>\n<body>\n  <div class=\"container\">\n    <div class=\"header\">\n      <h1>Test Execution Report</h1>\n    </div>\n    <div class=\"error\">\n      <p><strong>Error:</strong> "

/-- Third literal chunk of the error HTML page (between the error message and
the second interpolation of the run id). -/
def errorHtmlC : String :=
"</p>\n      <p><strong>Test Run ID:</strong> "

/-- Final literal chunk of the error HTML page. -/
def errorHtmlD : String :=
"</p>\n    </div>\n  </div>\n</body>\n</html>"

/-- The error HTML page written by the outer catch of `generateReport`;
`msg` is `error.message || 'Failed to generate report'`, already defaulted
at the call site. -/
def errorHtml (testRunId msg : String) : String :=
  errorHtmlA ++ testRunId ++ errorHtmlB ++ msg ++ errorHtmlC ++ testRunId ++ errorHtmlD

/-- Environment of one `generateReport` call: success flags and error
messages for each fallible filesystem operation, and the behaviour of the
external Allure CLI invocation (`execSync`).  `cliOutput` is the content of
`index.html` left by a successful CLI run (`none` when the CLI succeeded but
produced no `index.html`). -/
structure GenEnv where
  writeResultOk : Bool
  writeResultErr : String
  mkdirOk : Bool
  mkdirErr : String
  cliOk : Bool
  cliErr : String
  cliOutput : Option String
  writeIndexOk : Bool
  writeIndexErr : String
  fallbackMkdirOk : Bool
  fallbackMkdirErr : String
  fallbackWriteOk : Bool
  fallbackWriteErr : String
deriving Repr, DecidableEq

/-- Filesystem state relevant to one run id during `generateReport`: whether
`<runId>-result.json` exists in the raw-result pool, whether the run's
artifact directory exists, and the current content of its `index.html`. -/
structure GenWorld where
  resultFileExists : Bool
  reportDirExists : Bool
  indexHtml : Option String
deriving Repr, DecidableEq

/-- The artifact path returned by `generateReport`
(`path.join(ALLURE_REPORTS_DIR, testRunId)`, modelled relative to the
process working directory). -/
def reportPathOf (testRunId : String) : String :=
  "allure-reports/" ++ testRunId

/-- Step of `generateReport` that creates a minimal result file when none
exists (`fs.writeFileSync(resultFile, minimalResult)`); throws when the
write fails.  Errors carry the message and the filesystem state at the
throw point, for the surrounding catch. -/
def ensureResultFile (env : GenEnv) (w : GenWorld) : Except (String × GenWorld) GenWorld :=
  if w.resultFileExists then .ok w
  else if env.writeResultOk then .ok { w with resultFileExists := true }
  else .error (env.writeResultErr, w)

/-- Step of `generateReport` that creates the artifact directory when it does
not exist (`fs.mkdirSync(reportPath, { recursive: true })`). -/
def ensureReportDir (env : GenEnv) (w : GenWorld) : Except (String × GenWorld) GenWorld :=
  if w.reportDirExists then .ok w
  else if env.mkdirOk then .ok { w with reportDirExists := true }
  else .error (env.mkdirErr, w)

/-- The inner try/catch around the Allure CLI invocation: on success the
artifact directory is cleaned and left holding `cliOutput`; on failure
`useBasicReport` is set and the failure is absorbed locally.  Returns
`(useBasicReport, world)`. -/
def runCli (env : GenEnv) (w : GenWorld) : Bool × GenWorld :=
  if env.cliOk then (false, { w with indexHtml := env.cliOutput })
  else (true, w)

/-- Step of `generateReport` that writes the basic HTML page as `index.html`
when the CLI failed or `index.html` is missing. -/
def writeBasicIfNeeded (env : GenEnv) (testRunId : String) (useBasicReport : Bool)
    (w : GenWorld) : Except (String × GenWorld) GenWorld :=
  if useBasicReport || w.indexHtml.isNone then
    if env.writeIndexOk then .ok { w with indexHtml := some (basicHtml testRunId) }
    else .error (env.writeIndexErr, w)
  else .ok w

/-- Body of the outer `try` block of `AllureService.generateReport`: ensure a
result file, ensure the artifact directory, invoke the CLI (absorbing its
failure), write the basic page if needed, and return the artifact path. -/
def primaryStep (env : GenEnv) (w : GenWorld) (testRunId : String) :
    Except (String × GenWorld) (String × GenWorld) :=
  match ensureResultFile env w with
  | .error e => .error e
  | .ok w1 =>
    match ensureReportDir env w1 with
    | .error e => .error e
    | .ok w2 =>
      let p := runCli env w2
      match writeBasicIfNeeded env testRunId p.1 p.2 with
      | .error e => .error e
      | .ok w3 => .ok (reportPathOf testRunId, w3)

/-- The outer catch of `AllureService.generateReport`: try to create the
artifact directory and write the error HTML page; if even that fails,
rethrow `error.message || 'Failed to generate Allure report'` where `error`
is the primary failure. -/
def fallbackStep (env : GenEnv) (w : GenWorld) (testRunId e : String) :
    Except String (String × GenWorld) :=
  let msg := if e = "" then "Failed to generate report" else e
  let inner : Except String (String × GenWorld) :=
    if w.reportDirExists then
      if env.fallbackWriteOk then
        .ok (reportPathOf testRunId, { w with indexHtml := some (errorHtml testRunId msg) })
      else .error env.fallbackWriteErr
    else if env.fallbackMkdirOk then
      if env.fallbackWriteOk then
        .ok (reportPathOf testRunId,
          { w with reportDirExists := true, indexHtml := some (errorHtml testRunId msg) })
      else .error env.fallbackWriteErr
    else .error env.fallbackMkdirErr
  match inner with
  | .ok r => .ok r
  | .error _ => .error (if e = "" then "Failed to generate Allure report" else e)

/-- `AllureService.generateReport`: the primary try body, with its catch
running the fallback.  On success the artifact path and the resulting
filesystem state are returned; on failure only the thrown message. -/
def generateReport (env : GenEnv) (w : GenWorld) (testRunId : String) :
    Except String (String × GenWorld) :=
  match primaryStep env w testRunId with
  | .ok r => .ok r
  | .error (e, w1) => fallbackStep env w1 testRunId e

/-- Derived predicate: the primary try body of `generateReport` throws.  The
three fallible filesystem operations are the result-file write (attempted
only when the result file is missing), the artifact-directory creation
(attempted only when the directory is missing), and the basic-page write
(attempted only when the CLI failed or left no `index.html`). -/
def primaryFailsB (env : GenEnv) (w : GenWorld) : Bool :=
  (!w.resultFileExists && !env.writeResultOk) ||
  ((w.resultFileExists || env.writeResultOk) && !w.reportDirExists && !env.mkdirOk) ||
  ((w.resultFileExists || env.writeResultOk) && (w.reportDirExists || env.mkdirOk) &&
    (!env.cliOk || env.cliOutput.isNone) && !env.writeIndexOk)

/-- Derived predicate: the fallback catch of `generateReport` also throws
(its directory creation or its write of the error page fails), given the
filesystem state the catch can observe. -/
def fallbackFailsB (env : GenEnv) (w : GenWorld) : Bool :=
  let dirAtCatch := w.reportDirExists ||
    ((w.resultFileExists || env.writeResultOk) && env.mkdirOk)
  (!dirAtCatch && !env.fallbackMkdirOk) ||
  ((dirAtCatch || env.fallbackMkdirOk) && !env.fallbackWriteOk)

/-- A test run as seen by the dashboard (`TestRun` rows returned by the
`/test-runs` API): id, start timestamp (`new Date(startedAt).getTime()`),
and the optional `executionReportUrl` column. -/
structure TestRun where
  id : String
  startedAt : Int
  executionReportUrl : Option String
deriving Repr, DecidableEq

/-- JavaScript truthiness of an optional string column: `null`/`undefined`
and the empty string are falsy. -/
def truthy (o : Option String) : Bool :=
  o.getD "" != ""

/-- The comparator `(a, b) => b.startedAt - a.startedAt` of
`handleImportScriptAndGenerateReport`: runs sorted by start timestamp
descending (a stable sort, as JavaScript `Array.sort` is). -/
def runLe (a b : TestRun) : Bool :=
  b.startedAt ≤ a.startedAt

/-- The existing runs sorted most-recent-first, as
`existingRuns.sort((a, b) => ...)` does. -/
def sortRunsDesc (runs : List TestRun) : List TestRun :=
  runs.mergeSort runLe

/-- Outcome of the run-selection flow of
`handleImportScriptAndGenerateReport`, encoding its side effects: a cache
hit returns the existing URL with no run created and neither the waiter nor
the generator invoked; `generateExisting` targets an existing run for
generation without waiting; `createdAndWait` creates exactly one new run and
hands it to the waiter before generation. -/
inductive SelectionResult where
  | cacheHit (url : String)
  | generateExisting (runId : String)
  | createdAndWait (runId : String)
deriving Repr, DecidableEq

/-- The run-selection logic of `handleImportScriptAndGenerateReport`:
if any runs exist, sort them by start timestamp descending and look at the
most recent one — reuse its report URL when it has one, otherwise target it
for generation; only when no run exists is a new run (with id `newRunId`,
as returned by `POST /test-runs/start`) created. -/
def selectRunForReport (runs : List TestRun) (newRunId : String) : SelectionResult :=
  match sortRunsDesc runs with
  | [] => .createdAndWait newRunId
  | mostRecent :: _ =>
    if truthy mostRecent.executionReportUrl then
      .cacheHit (mostRecent.executionReportUrl.getD "")
    else .generateExisting mostRecent.id

/-- Terminal run statuses recognised by the waiter loop of
`handleImportScriptAndGenerateReport`. -/
def isTerminal (status : String) : Bool :=
  status == "passed" || status == "failed" || status == "completed"

/-- The waiter loop of `handleImportScriptAndGenerateReport`:
`attempts` starts at 0, each iteration sleeps one second and polls the run
status once (`statusAt k` is the status observed by the `k`-th poll,
0-indexed); a terminal status breaks out, otherwise `attempts` increments,
up to `maxAttempts` iterations.  Returns the number of polls performed and
`some s` when a terminal status `s` ended the wait, `none` when the ceiling
was reached (a non-error outcome: the caller proceeds to generation). -/
def waitForRunLoop (statusAt : Nat → String) : Nat → Nat → Nat × Option String
  | attempts, 0 => (attempts, none)
  | attempts, remaining + 1 =>
    let status := statusAt attempts
    if isTerminal status then (attempts + 1, some status)
    else waitForRunLoop statusAt (attempts + 1) remaining

/-- The waiter as invoked by the dashboard: `attempts = 0`,
`maxAttempts = 30`, a one-second sleep before every poll (so `polls ≤ 30`
is the 30-second ceiling). -/
def waitForRun (statusAt : Nat → String) : Nat × Option String :=
  waitForRunLoop statusAt 0 30

/-- A row of the fallback database query of `getReportsByProject`
(`TestRun` joined with `Script`), already filtered to the authenticated
user by the `WHERE` clause. -/
structure DbRow where
  id : String
  status : String
  startedAt : Int
  completedAt : Option Int
  scriptName : String
  projectId : String
deriving Repr, DecidableEq

/-- The `ORDER BY tr."completedAt" DESC NULLS LAST, tr."startedAt" DESC`
ordering of the fallback query: completed timestamps descending, rows with a
null completion time last, start timestamp descending as the secondary
key. -/
def rowLe (a b : DbRow) : Bool :=
  match a.completedAt, b.completedAt with
  | some x, some y => if x = y then decide (b.startedAt ≤ a.startedAt) else decide (y < x)
  | some _, none => true
  | none, some _ => false
  | none, none => decide (b.startedAt ≤ a.startedAt)

/-- Caller-facing item returned by `getReportsByProject` (both paths map to
this shape). -/
structure ReportListItem where
  id : String
  scriptName : Option String
  status : Option String
  startedAt : Option Int
  completedAt : Option Int
  reportUrl : String
deriving Repr, DecidableEq

/-- Mapping of a ledger entry to the caller-facing shape (the `entries.map`
of the fast path). -/
def entryToItem (e : ReportIndexEntry) : ReportListItem :=
  ⟨e.id, e.scriptName, e.status, e.startedAt, e.completedAt, e.reportUrl⟩

/-- Mapping of a database row to the caller-facing shape (the `results.push`
of the fallback path), given the non-empty report URL. -/
def rowToItem (r : DbRow) (url : String) : ReportListItem :=
  ⟨r.id, some r.scriptName, some r.status, some r.startedAt, r.completedAt, url⟩

/-- The indexed (fast-path) results of `getReportsByProject`: the one
project's ledger when `projectId` is given, otherwise all ledgers merged
(`flatMap` over `listAllProjectIndexes`). -/
def indexedResults (dir : LedgerDir) (projectId : Option String) : List ReportListItem :=
  match projectId with
  | some pid => (readProjectIndexIn dir pid).map entryToItem
  | none => (listAllProjectIndexes dir).flatMap (fun p => p.2.map entryToItem)

/-- Body of the fallback loop of `getReportsByProject` for one row: compute
the row's report URL and keep the row only when the URL is non-empty
(`hasReport` models existence of the run's artifact directory). -/
def fallbackItem (hasReport : String → Bool) (r : DbRow) : Option ReportListItem :=
  let url := getReportUrl (hasReport r.id) r.id
  if url ≠ "" then some (rowToItem r url) else none

/-- The rows of the fallback database query: filtered by project when a
`projectId` is given (the SQL `WHERE` clause). -/
def filteredRows (rows : List DbRow) (projectId : Option String) : List DbRow :=
  match projectId with
  | some pid => rows.filter (fun r => r.projectId == pid)
  | none => rows

/-- The fallback (database) results of `getReportsByProject`: rows filtered
by project, ordered by the SQL `ORDER BY`, and kept only when
`getReportUrl` returns a non-empty URL for the row's run id. -/
def fallbackResults (rows : List DbRow) (hasReport : String → Bool)
    (projectId : Option String) : List ReportListItem :=
  ((filteredRows rows projectId).mergeSort rowLe).filterMap (fallbackItem hasReport)

/-- `getReportsByProject`: return the indexed results when there is at least
one, otherwise fall back to the database query. -/
def getReportsByProject (dir : LedgerDir) (rows : List DbRow)
    (hasReport : String → Bool) (projectId : Option String) : List ReportListItem :=
  let indexed := indexedResults dir projectId
  if indexed.length > 0 then indexed
  else fallbackResults rows hasReport projectId

theorem isPrefixB_self_append (n q : List Char) : isPrefixB n (n ++ q) = true := by
  induction n with
  | nil => rfl
  | cons a as ih => simp [isPrefixB, ih]

theorem isInfixB_of_isPrefixB (n l : List Char) (h : isPrefixB n l = true) :
    isInfixB n l = true := by
  cases l with
  | nil => simpa [isInfixB] using h
  | cons c rest => simp [isInfixB, h]

theorem isInfixB_append_right (n s t : List Char) (h : isInfixB n t = true) :
    isInfixB n (s ++ t) = true := by
  induction s with
  | nil => simpa using h
  | cons c cs ih => simp [isInfixB, ih]

theorem toList_append (s t : String) : (s ++ t).toList = s.toList ++ t.toList := by
  simp [String.toList, String.data_append]

theorem containsSubstr_sandwich (n a b : String) :
    containsSubstr n (a ++ n ++ b) = true := by
  unfold containsSubstr
  rw [toList_append, toList_append, List.append_assoc]
  exact isInfixB_append_right _ _ _
    (isInfixB_of_isPrefixB _ _ (isPrefixB_self_append _ _))

theorem containsSubstr_append_right (n s t : String) (h : containsSubstr n t = true) :
    containsSubstr n (s ++ t) = true := by
  unfold containsSubstr at *
  rw [toList_append]
  exact isInfixB_append_right _ _ _ h

theorem basicHtml_contains_id (testRunId : String) :
    containsSubstr testRunId (basicHtml testRunId) = true := by
  unfold basicHtml
  have h : basicHtmlA ++ testRunId ++ basicHtmlB ++ testRunId ++ basicHtmlC
      = basicHtmlA ++ testRunId ++ (basicHtmlB ++ testRunId ++ basicHtmlC) := by
    simp [String.append_assoc]
  rw [h]
  exact containsSubstr_sandwich _ _ _

theorem basicHtml_contains_note (testRunId : String) :
    containsSubstr "Allure CLI is not available" (basicHtml testRunId) = true := by
  unfold basicHtml
  have h : basicHtmlA ++ testRunId ++ basicHtmlB ++ testRunId ++ basicHtmlC
      = (basicHtmlA ++ testRunId ++ basicHtmlB ++ testRunId) ++ basicHtmlC := by
    simp [String.append_assoc]
  rw [h]
  exact containsSubstr_append_right _ _ _ (by decide)

/-- A ledger-directory entry of the reports root whose modification time is
in the distant past. -/
def oldLedgerDirEntry : DirEntry := ⟨byProjectDirName, 0, 0⟩

/-- A reports store whose root holds the `by-project` ledger directory (old
mtime) and one recent run artifact directory. -/
def storeWithLedger : ReportsStore :=
  ⟨["run1"], [oldLedgerDirEntry, ⟨"run1", 999999999, 0⟩]⟩

/-- C2 counterexample: `cleanupOldReports` scans the whole reports root, and
the `by-project` directory that holds every per-project ledger is one of its
entries — with an old modification time it is removed (recursively, deleting
all ledgers), contradicting the claim that cleanup leaves every per-project
ledger unchanged.  At `now = 10^9`, `daysToKeep = 7` (threshold
`6.048*10^8`), the ledger directory with `mtimeMs = 0` is deleted. -/
theorem cleanupOldReports_deletes_ledger_dir :
    oldLedgerDirEntry ∈ storeWithLedger.reportsRoot ∧
    oldLedgerDirEntry ∉ (cleanupOldReports 1000000000 7 storeWithLedger).reportsRoot := by
  decide

/-- C2 (amended): `cleanupOldReports daysToKeep` keeps the raw-result pool
unchanged and removes exactly those entries of the reports root — run
artifact directories and the `by-project` ledger directory alike — whose
modification time is more than `daysToKeep` days before `now`. -/
theorem cleanupOldReports_exact (now daysToKeep : Int) (s : ReportsStore) :
    (cleanupOldReports now daysToKeep s).resultsPool = s.resultsPool ∧
    (∀ e : DirEntry, e ∈ (cleanupOldReports now daysToKeep s).reportsRoot ↔
      (e ∈ s.reportsRoot ∧ ¬(now - e.mtimeMs > daysToKeep * 24 * 60 * 60 * 1000))) := by
  refine ⟨rfl, fun e => ?_⟩
  simp [cleanupOldReports, List.mem_filter]

/-- C10: `getAllReports` maps every entry of the reports root — including
the `by-project` ledger directory, which therefore appears in the
enumeration as if it were a run's report — to a record of id, path and
creation time, and returns `[]` instead of throwing on any I/O failure. -/
theorem getAllReports_spec (root : List DirEntry) (e : DirEntry) :
    getAllReports false root = [] ∧
    getAllReports true root =
      root.map (fun d => ⟨d.name, "/allure-reports/" ++ d.name ++ "/index.html", d.birthtime⟩) ∧
    (getAllReports true root).length = root.length ∧
    (e ∈ root →
      (⟨e.name, "/allure-reports/" ++ e.name ++ "/index.html", e.birthtime⟩ : ReportRec) ∈
        getAllReports true root) ∧
    (e ∈ root → e.name = byProjectDirName →
      (⟨byProjectDirName, "/allure-reports/" ++ byProjectDirName ++ "/index.html",
        e.birthtime⟩ : ReportRec) ∈ getAllReports true root) := by
  refine ⟨rfl, rfl, by simp [getAllReports], fun he => ?_, fun he hname => ?_⟩
  · exact List.mem_map.mpr ⟨e, he, rfl⟩
  · refine List.mem_map.mpr ⟨e, he, ?_⟩
    rw [hname]

/-- C10 witness: a root holding only the ledger directory is enumerated as
one report record for `by-project`. -/
theorem getAllReports_spec_witness :
    (⟨byProjectDirName, "/allure-reports/" ++ byProjectDirName ++ "/index.html", 5⟩ : ReportRec) ∈
      getAllReports true [⟨byProjectDirName, 0, 5⟩] :=
  (getAllReports_spec [⟨byProjectDirName, 0, 5⟩] ⟨byProjectDirName, 0, 5⟩).2.2.2.2
    (by decide) rfl

theorem appendProjectIndexEntryTry_ok (f : LedgerFile) (entry : ReportIndexEntry) :
    appendProjectIndexEntryTry true true f entry =
      .ok (.stored (.parsable (.arr
        (entry :: (readProjectIndex f).filter (fun r => r.id ≠ entry.id))))) := by
  cases f with
  | absent => rfl
  | stored raw =>
    cases raw with
    | parsable v => cases v <;> rfl
    | malformed => rfl
    | unreadable => rfl

/-- C5: after a successful `appendProjectIndexEntry`, the ledger holds
exactly one entry with the appended id, the appended entry is at the front,
no entry with a different id was removed, and appending an already-indexed
id never increases the entry count. -/
theorem appendProjectIndexEntry_upsert (f : LedgerFile) (entry : ReportIndexEntry) :
    ∃ post : List ReportIndexEntry,
      appendProjectIndexEntry true true f entry = .stored (.parsable (.arr post)) ∧
      List.countP (fun r => r.id == entry.id) post = 1 ∧
      post.head? = some entry ∧
      (∀ r ∈ readProjectIndex f, r.id ≠ entry.id → r ∈ post) ∧
      ((∃ r ∈ readProjectIndex f, r.id = entry.id) →
        post.length ≤ (readProjectIndex f).length) := by
  refine ⟨entry :: (readProjectIndex f).filter (fun r => r.id ≠ entry.id),
    ?_, ?_, rfl, fun r hr hne => ?_, fun hex => ?_⟩
  · simp [appendProjectIndexEntry, appendProjectIndexEntryTry_ok]
  · rw [List.countP_cons_of_pos _ _ (by simp)]
    have hz : List.countP (fun r => r.id == entry.id)
        ((readProjectIndex f).filter (fun r => r.id ≠ entry.id)) = 0 := by
      rw [List.countP_eq_zero]
      intro a ha
      have := (List.mem_filter.mp ha).2
      simp at this ⊢
      exact this
    rw [hz]
  · exact List.mem_cons_of_mem _ (List.mem_filter.mpr ⟨hr, by simpa using hne⟩)
  · have hpos : 0 < List.countP (fun r => r.id == entry.id) (readProjectIndex f) := by
      rw [List.countP_pos_iff]
      obtain ⟨r, hr, hid⟩ := hex
      exact ⟨r, hr, by simpa using hid⟩
    have hlen : ((readProjectIndex f).filter (fun r => r.id ≠ entry.id)).length
        = List.countP (fun r => decide ¬(r.id == entry.id) = true) (readProjectIndex f) := by
      rw [← List.countP_eq_length_filter]
      exact List.countP_congr (fun a _ => by simp)
    have htot := List.length_eq_countP_add_countP
      (fun r => r.id == entry.id) (readProjectIndex f)
    simp only [List.length_cons, hlen]
    omega

/-- C5 witness: appending an entry whose id is already indexed keeps the
count at one and moves the entry to the front. -/
theorem appendProjectIndexEntry_upsert_witness :
    ∃ post : List ReportIndexEntry,
      appendProjectIndexEntry true true
        (.stored (.parsable (.arr [⟨"run1", "p1", none, none, none, none, none, "u0", 0⟩])))
        ⟨"run1", "p1", none, none, none, none, none, "u1", 1⟩ =
        .stored (.parsable (.arr post)) ∧
      List.countP (fun r => r.id == "run1") post = 1 ∧
      post.head? = some ⟨"run1", "p1", none, none, none, none, none, "u1", 1⟩ ∧
      post.length ≤ 1 := by
  obtain ⟨post, h1, h2, h3, _, h5⟩ := appendProjectIndexEntry_upsert
    (.stored (.parsable (.arr [⟨"run1", "p1", none, none, none, none, none, "u0", 0⟩])))
    ⟨"run1", "p1", none, none, none, none, none, "u1", 1⟩
  refine ⟨post, h1, h2, h3, ?_⟩
  exact h5 ⟨⟨"run1", "p1", none, none, none, none, none, "u0", 0⟩, by decide, rfl⟩

/-- C6: no ProjectIndex operation propagates a failure: when the read try
body throws, `readProjectIndex` returns `[]`; when the append try body
throws, `appendProjectIndexEntry` leaves the ledger unchanged (the failure
is only logged); an unparseable ledger is treated as empty, so a successful
append over it yields exactly the new entry; and a failed ledger write
leaves the ledger unchanged. -/
theorem projectIndex_absorbs_failures (f : LedgerFile) (entry : ReportIndexEntry)
    (writeOk renameOk : Bool) :
    (∀ e, readProjectIndexTry f = .error e → readProjectIndex f = []) ∧
    (∀ e, appendProjectIndexEntryTry writeOk renameOk f entry = .error e →
      appendProjectIndexEntry writeOk renameOk f entry = f) ∧
    ((f = .stored .malformed ∨ f = .stored .unreadable) →
      appendProjectIndexEntry true true f entry = .stored (.parsable (.arr [entry]))) ∧
    (writeOk = false → appendProjectIndexEntry writeOk renameOk f entry = f) := by
  refine ⟨fun e h => ?_, fun e h => ?_, fun hf => ?_, fun hw => ?_⟩
  · unfold readProjectIndex
    rw [h]
  · unfold appendProjectIndexEntry
    rw [h]
  · rcases hf with hf | hf <;> subst hf <;> rfl
  · subst hw
    rfl

/-- C6 witness: a malformed ledger is self-healed to exactly the appended
entry, and a failed write leaves the malformed ledger unchanged. -/
theorem projectIndex_absorbs_failures_witness :
    appendProjectIndexEntry true true (.stored .malformed)
      ⟨"run1", "p1", none, none, none, none, none, "u1", 1⟩ =
      .stored (.parsable (.arr [⟨"run1", "p1", none, none, none, none, none, "u1", 1⟩])) ∧
    appendProjectIndexEntry false true (.stored .malformed)
      ⟨"run1", "p1", none, none, none, none, none, "u1", 1⟩ = .stored .malformed := by
  refine ⟨(projectIndex_absorbs_failures (.stored .malformed)
    ⟨"run1", "p1", none, none, none, none, none, "u1", 1⟩ true true).2.2.1 (Or.inl rfl),
    (projectIndex_absorbs_failures (.stored .malformed)
    ⟨"run1", "p1", none, none, none, none, none, "u1", 1⟩ false true).2.2.2 rfl⟩

theorem reportPathOf_ne_empty (testRunId : String) : reportPathOf testRunId ≠ "" := by
  unfold reportPathOf
  intro h
  have h1 := congrArg String.length h
  rw [String.length_append] at h1
  have h2 : ("allure-reports/" : String).length = 15 := rfl
  have h3 : ("" : String).length = 0 := rfl
  omega

theorem reportUrl_ne_empty (testRunId : String) :
    "/allure-reports/" ++ testRunId ++ "/index.html" ≠ "" := by
  intro h
  have h1 := congrArg String.length h
  rw [String.length_append, String.length_append] at h1
  have h2 : ("/allure-reports/" : String).length = 16 := rfl
  have h3 : ("/index.html" : String).length = 11 := rfl
  have h4 : ("" : String).length = 0 := rfl
  omega

theorem generateReport_ok_shape (env : GenEnv) (w : GenWorld) (testRunId p : String)
    (w2 : GenWorld) (h : generateReport env w testRunId = .ok (p, w2)) :
    p = reportPathOf testRunId ∧ w2.reportDirExists = true := by
  obtain ⟨wr, wrE, mk, mkE, cli, cliE, cliOut, wi, wiE, fm, fmE, fw, fwE⟩ := env
  obtain ⟨rf, rd, ih⟩ := w
  cases wr <;> cases mk <;> cases cli <;> cases wi <;> cases fm <;> cases fw <;>
    cases rf <;> cases rd <;> cases cliOut <;>
    simp_all [generateReport, primaryStep, fallbackStep, ensureResultFile, ensureReportDir,
      runCli, writeBasicIfNeeded] <;>
    (try (obtain ⟨-, h2⟩ := h; rw [← h2]))

theorem generateReport_error_iff (env : GenEnv) (w : GenWorld) (testRunId : String) :
    (∃ e, generateReport env w testRunId = .error e) ↔
      (primaryFailsB env w = true ∧ fallbackFailsB env w = true) := by
  obtain ⟨wr, wrE, mk, mkE, cli, cliE, cliOut, wi, wiE, fm, fmE, fw, fwE⟩ := env
  obtain ⟨rf, rd, ih⟩ := w
  cases wr <;> cases mk <;> cases cli <;> cases wi <;> cases fm <;> cases fw <;>
    cases rf <;> cases rd <;> cases cliOut <;>
    simp [generateReport, primaryStep, fallbackStep, ensureResultFile, ensureReportDir,
      runCli, writeBasicIfNeeded, primaryFailsB, fallbackFailsB]

theorem generateReport_fs_ok (env : GenEnv) (w : GenWorld) (testRunId : String)
    (h1 : env.writeResultOk = true) (h2 : env.mkdirOk = true) (h3 : env.writeIndexOk = true) :
    ∃ p w2, generateReport env w testRunId = .ok (p, w2) := by
  obtain ⟨wr, wrE, mk, mkE, cli, cliE, cliOut, wi, wiE, fm, fmE, fw, fwE⟩ := env
  obtain ⟨rf, rd, ih⟩ := w
  simp only at h1 h2 h3
  subst h1 h2 h3
  cases cli <;> cases rf <;> cases rd <;> cases cliOut <;>
    simp [generateReport, primaryStep, fallbackStep, ensureResultFile, ensureReportDir,
      runCli, writeBasicIfNeeded]

/-- C1: `generateReport` never returns an empty artifact path; if the three
filesystem writes of the primary path succeed then it succeeds regardless of
the Allure CLI invocation (tool failures are absorbed into a fallback
report); and a thrown error is equivalent to the primary try body failing on
a filesystem operation while the fallback catch also fails to create or
write the artifact directory. -/
theorem generateReport_error_handling (env : GenEnv) (w : GenWorld) (testRunId : String) :
    (∀ p w2, generateReport env w testRunId = .ok (p, w2) → p ≠ "") ∧
    (env.writeResultOk = true → env.mkdirOk = true → env.writeIndexOk = true →
      ∃ p w2, generateReport env w testRunId = .ok (p, w2)) ∧
    ((∃ e, generateReport env w testRunId = .error e) ↔
      (primaryFailsB env w = true ∧ fallbackFailsB env w = true)) := by
  refine ⟨fun p w2 h => ?_, fun h1 h2 h3 => generateReport_fs_ok env w testRunId h1 h2 h3,
    generateReport_error_iff env w testRunId⟩
  rw [(generateReport_ok_shape env w testRunId p w2 h).1]
  exact reportPathOf_ne_empty testRunId

/-- C1 witness: with all filesystem writes succeeding and the CLI failing,
`generateReport` still succeeds. -/
theorem generateReport_error_handling_witness :
    ∃ p w2, generateReport ⟨true, "", true, "", false, "boom", none, true, "", true, "", true, ""⟩
      ⟨false, false, none⟩ "run1" = .ok (p, w2) :=
  (generateReport_error_handling ⟨true, "", true, "", false, "boom", none, true, "", true, "", true, ""⟩
    ⟨false, false, none⟩ "run1").2.1 rfl rfl rfl

set_option maxRecDepth 40000 in
/-- C7 counterexample: when the CLI invocation fails with the available
error message `boom` (and the filesystem operations succeed), the artifact's
entry resource is the basic fallback page — it embeds the run id but does
NOT contain the available error message, contradicting the claim that the
entry resource contains an error message when one is available. -/
theorem generateReport_cli_message_counterexample :
    generateReport ⟨true, "", true, "", false, "boom", none, true, "", true, "", true, ""⟩
      ⟨false, false, none⟩ "run1" =
      .ok (reportPathOf "run1", ⟨true, true, some (basicHtml "run1")⟩) ∧
    containsSubstr "run1" (basicHtml "run1") = true ∧
    containsSubstr "boom" (basicHtml "run1") = false := by
  refine ⟨rfl, basicHtml_contains_id "run1", by decide⟩

/-- C7 (amended): whenever the CLI invocation fails and the filesystem
operations succeed, `generateReport` returns the non-empty artifact path and
writes the basic fallback page as the entry resource; that page contains the
run id and a generic error indicator (the note that the Allure CLI is not
available) — the specific tool error message is only logged, not embedded. -/
theorem generateReport_cli_failure_fallback (env : GenEnv) (w : GenWorld) (testRunId : String)
    (hcli : env.cliOk = false) (h1 : env.writeResultOk = true) (h2 : env.mkdirOk = true)
    (h3 : env.writeIndexOk = true) :
    generateReport env w testRunId =
      .ok (reportPathOf testRunId, ⟨true, true, some (basicHtml testRunId)⟩) ∧
    reportPathOf testRunId ≠ "" ∧
    containsSubstr testRunId (basicHtml testRunId) = true ∧
    containsSubstr "Allure CLI is not available" (basicHtml testRunId) = true := by
  refine ⟨?_, reportPathOf_ne_empty testRunId, basicHtml_contains_id testRunId,
    basicHtml_contains_note testRunId⟩
  obtain ⟨wr, wrE, mk, mkE, cli, cliE, cliOut, wi, wiE, fm, fmE, fw, fwE⟩ := env
  obtain ⟨rf, rd, ih⟩ := w
  simp only at hcli h1 h2 h3
  subst hcli h1 h2 h3
  cases rf <;> cases rd <;>
    simp [generateReport, primaryStep, fallbackStep, ensureResultFile, ensureReportDir,
      runCli, writeBasicIfNeeded]

/-- C7 witness: concrete instance of the amended claim. -/
theorem generateReport_cli_failure_fallback_witness :
    generateReport ⟨true, "", true, "", false, "x", none, true, "", true, "", true, ""⟩
      ⟨true, true, some "old"⟩ "run2" =
      .ok (reportPathOf "run2", ⟨true, true, some (basicHtml "run2")⟩) ∧
    reportPathOf "run2" ≠ "" ∧
    containsSubstr "run2" (basicHtml "run2") = true ∧
    containsSubstr "Allure CLI is not available" (basicHtml "run2") = true :=
  generateReport_cli_failure_fallback
    ⟨true, "", true, "", false, "x", none, true, "", true, "", true, ""⟩
    ⟨true, true, some "old"⟩ "run2" rfl rfl rfl rfl

/-- C8: `getReportUrl` returns a non-empty URL exactly when the artifact
directory exists, and that URL is determined only by the run id; a
successful `generateReport` leaves the artifact directory in place, so two
successive successful calls for the same run id yield non-empty, identical
`getReportUrl` results. -/
theorem getReportUrl_deterministic (b : Bool) (testRunId : String) (env1 env2 : GenEnv)
    (w w1 w2 : GenWorld) (p1 p2 : String) :
    (getReportUrl b testRunId ≠ "" ↔ b = true) ∧
    (getReportUrl true testRunId = "/allure-reports/" ++ testRunId ++ "/index.html") ∧
    (generateReport env1 w testRunId = .ok (p1, w1) →
      generateReport env2 w1 testRunId = .ok (p2, w2) →
      getReportUrl w1.reportDirExists testRunId ≠ "" ∧
      getReportUrl w2.reportDirExists testRunId = getReportUrl w1.reportDirExists testRunId) := by
  refine ⟨?_, rfl, fun hg1 hg2 => ?_⟩
  · cases b with
    | false => simp [getReportUrl]
    | true => simp [getReportUrl, reportUrl_ne_empty testRunId]
  · have d1 := (generateReport_ok_shape env1 w testRunId p1 w1 hg1).2
    have d2 := (generateReport_ok_shape env2 w1 testRunId p2 w2 hg2).2
    rw [d1, d2]
    exact ⟨by simp [getReportUrl, reportUrl_ne_empty testRunId], rfl⟩

/-- C8 witness: two successive successful generations for the same run id
give the same non-empty URL. -/
theorem getReportUrl_deterministic_witness :
    getReportUrl (⟨true, true, some "A"⟩ : GenWorld).reportDirExists "run1" ≠ "" ∧
    getReportUrl (⟨true, true, some "A"⟩ : GenWorld).reportDirExists "run1" =
      getReportUrl (⟨true, true, some "A"⟩ : GenWorld).reportDirExists "run1" :=
  (getReportUrl_deterministic true "run1"
    ⟨true, "", true, "", true, "", some "A", true, "", true, "", true, ""⟩
    ⟨true, "", true, "", true, "", some "A", true, "", true, "", true, ""⟩
    ⟨false, false, none⟩ ⟨true, true, some "A"⟩ ⟨true, true, some "A"⟩
    (reportPathOf "run1") (reportPathOf "run1")).2.2 rfl rfl

theorem runLe_trans (a b c : TestRun) (h1 : runLe a b = true) (h2 : runLe b c = true) :
    runLe a c = true := by
  simp [runLe] at *
  omega

theorem runLe_total (a b : TestRun) : (runLe a b || runLe b a) = true := by
  simp [runLe]
  omega

theorem sortRunsDesc_head_max (runs : List TestRun) (h : TestRun) (t : List TestRun)
    (hs : sortRunsDesc runs = h :: t) :
    h ∈ runs ∧ ∀ r ∈ runs, r.startedAt ≤ h.startedAt := by
  have hmem : h ∈ runs := by
    have hh : h ∈ runs.mergeSort runLe := by
      rw [show runs.mergeSort runLe = sortRunsDesc runs from rfl, hs]
      exact List.mem_cons_self _ _
    exact List.mem_mergeSort.mp hh
  refine ⟨hmem, fun r hr => ?_⟩
  have hsorted := @List.sorted_mergeSort TestRun runLe
    (fun a b c => runLe_trans a b c) (fun a b => runLe_total a b) runs
  rw [show runs.mergeSort runLe = sortRunsDesc runs from rfl, hs] at hsorted
  obtain ⟨hhead, -⟩ := List.pairwise_cons.mp hsorted
  have hrmem : r ∈ h :: t := by
    rw [← hs, show sortRunsDesc runs = runs.mergeSort runLe from rfl]
    exact List.mem_mergeSort.mpr hr
  rcases List.mem_cons.mp hrmem with rfl | hrt
  · exact le_refl _
  · have := hhead r hrt
    simpa [runLe] using this

/-- C3: the run-selection flow is three-way — a new run is created (and
waited for) exactly when no run exists; when runs exist, the most recent one
(by start timestamp, descending) is examined: with a truthy report URL the
flow is a cache hit returning that URL, otherwise that run is targeted for
generation without waiting; every cache hit returns the non-empty URL of a
most-recent run, and every generation target is a most-recent run without a
report URL.  At most one run is ever created per invocation (creation occurs
only in the `createdAndWait` outcome, which creates exactly one). -/
theorem selectRunForReport_three_way (runs : List TestRun) (newRunId : String) :
    (selectRunForReport runs newRunId = .createdAndWait newRunId ↔ runs = []) ∧
    (∀ h t, sortRunsDesc runs = h :: t →
      (truthy h.executionReportUrl = true →
        selectRunForReport runs newRunId = .cacheHit (h.executionReportUrl.getD "")) ∧
      (truthy h.executionReportUrl = false →
        selectRunForReport runs newRunId = .generateExisting h.id)) ∧
    (∀ url, selectRunForReport runs newRunId = .cacheHit url →
      ∃ r, r ∈ runs ∧ r.executionReportUrl.getD "" = url ∧ url ≠ "" ∧
        ∀ r2 ∈ runs, r2.startedAt ≤ r.startedAt) ∧
    (∀ rid, selectRunForReport runs newRunId = .generateExisting rid →
      ∃ r, r ∈ runs ∧ r.id = rid ∧ truthy r.executionReportUrl = false ∧
        ∀ r2 ∈ runs, r2.startedAt ≤ r.startedAt) := by
  have hval : ∀ h t, sortRunsDesc runs = h :: t →
      selectRunForReport runs newRunId =
        (if truthy h.executionReportUrl then .cacheHit (h.executionReportUrl.getD "")
         else .generateExisting h.id) := by
    intro h t hs
    unfold selectRunForReport
    rw [hs]
  refine ⟨⟨fun hsel => ?_, fun hnil => ?_⟩, fun h t hs => ?_, fun url hsel => ?_,
    fun rid hsel => ?_⟩
  · cases hs : sortRunsDesc runs with
    | nil =>
      have hperm := List.mergeSort_perm runs runLe
      rw [show runs.mergeSort runLe = sortRunsDesc runs from rfl, hs] at hperm
      exact (List.perm_nil.mp hperm.symm).symm ▸ rfl
    | cons h t =>
      rw [hval h t hs] at hsel
      by_cases ht : truthy h.executionReportUrl = true
      · rw [if_pos ht] at hsel
        cases hsel
      · rw [if_neg ht] at hsel
        cases hsel
  · subst hnil
    simp [selectRunForReport, sortRunsDesc]
  · refine ⟨fun ht => ?_, fun ht => ?_⟩
    · rw [hval h t hs, if_pos ht]
    · rw [hval h t hs, if_neg (by simp [ht])]
  · cases hs : sortRunsDesc runs with
    | nil =>
      have hnil : runs = [] := by
        have hperm := List.mergeSort_perm runs runLe
        rw [show runs.mergeSort runLe = sortRunsDesc runs from rfl, hs] at hperm
        exact List.perm_nil.mp hperm.symm
      subst hnil
      simp [selectRunForReport, sortRunsDesc] at hsel
    | cons h t =>
      rw [hval h t hs] at hsel
      obtain ⟨hmem, hmax⟩ := sortRunsDesc_head_max runs h t hs
      by_cases ht : truthy h.executionReportUrl = true
      · rw [if_pos ht] at hsel
        cases hsel
        refine ⟨h, hmem, rfl, ?_, hmax⟩
        simpa [truthy] using ht
      · rw [if_neg ht] at hsel
        cases hsel
  · cases hs : sortRunsDesc runs with
    | nil =>
      have hnil : runs = [] := by
        have hperm := List.mergeSort_perm runs runLe
        rw [show runs.mergeSort runLe = sortRunsDesc runs from rfl, hs] at hperm
        exact List.perm_nil.mp hperm.symm
      subst hnil
      simp [selectRunForReport, sortRunsDesc] at hsel
    | cons h t =>
      rw [hval h t hs] at hsel
      obtain ⟨hmem, hmax⟩ := sortRunsDesc_head_max runs h t hs
      by_cases ht : truthy h.executionReportUrl = true
      · rw [if_pos ht] at hsel
        cases hsel
      · rw [if_neg ht] at hsel
        cases hsel
        exact ⟨h, hmem, rfl, Bool.not_eq_true _ ▸ ht, hmax⟩

/-- C3 witness: a script whose single run already carries a report URL is a
cache hit returning that URL. -/
theorem selectRunForReport_three_way_witness :
    selectRunForReport [(⟨"r1", 100, some "url1"⟩ : TestRun)] "new" = .cacheHit "url1" := by
  have hs : sortRunsDesc [(⟨"r1", 100, some "url1"⟩ : TestRun)] = [⟨"r1", 100, some "url1"⟩] :=
    List.mergeSort_singleton _
  have h := ((selectRunForReport_three_way [⟨"r1", 100, some "url1"⟩] "new").2.1
    ⟨"r1", 100, some "url1"⟩ [] hs).1 (by decide)
  simpa using h

theorem waitForRunLoop_spec (statusAt : Nat → String) :
    ∀ (remaining attempts : Nat),
      (waitForRunLoop statusAt attempts remaining).1 ≤ attempts + remaining ∧
      (∀ s, (waitForRunLoop statusAt attempts remaining).2 = some s →
        ∃ k, attempts ≤ k ∧ k < attempts + remaining ∧
          (waitForRunLoop statusAt attempts remaining).1 = k + 1 ∧
          s = statusAt k ∧ isTerminal s = true ∧
          ∀ j, attempts ≤ j → j < k → isTerminal (statusAt j) = false) ∧
      ((waitForRunLoop statusAt attempts remaining).2 = none →
        (waitForRunLoop statusAt attempts remaining).1 = attempts + remaining ∧
        ∀ k, attempts ≤ k → k < attempts + remaining → isTerminal (statusAt k) = false) := by
  intro remaining
  induction remaining with
  | zero =>
    intro attempts
    refine ⟨le_refl _, fun s hs => by simp [waitForRunLoop] at hs, fun _ => ⟨rfl, ?_⟩⟩
    intro k hk1 hk2
    omega
  | succ r ih =>
    intro attempts
    by_cases hterm : isTerminal (statusAt attempts) = true
    · have heq : waitForRunLoop statusAt attempts (r + 1) =
          (attempts + 1, some (statusAt attempts)) := by
        simp [waitForRunLoop, hterm]
      rw [heq]
      refine ⟨by omega, fun s hs => ?_, fun hnone => by cases hnone⟩
      simp at hs
      refine ⟨attempts, le_refl _, by omega, rfl, hs.symm, hs ▸ hterm, ?_⟩
      intro j hj1 hj2
      omega
    · have heq : waitForRunLoop statusAt attempts (r + 1) =
          waitForRunLoop statusAt (attempts + 1) r := by
        simp [waitForRunLoop, hterm]
      rw [heq]
      obtain ⟨ih1, ih2, ih3⟩ := ih (attempts + 1)
      have hfalse : isTerminal (statusAt attempts) = false :=
        Bool.not_eq_true _ ▸ hterm
      refine ⟨by omega, fun s hs => ?_, fun hnone => ?_⟩
      · obtain ⟨k, hk1, hk2, hk3, hk4, hk5, hk6⟩ := ih2 s hs
        refine ⟨k, by omega, by omega, hk3, hk4, hk5, fun j hj1 hj2 => ?_⟩
        rcases Nat.eq_or_lt_of_le hj1 with rfl | hj
        · exact hfalse
        · exact hk6 j (by omega) hj2
      · obtain ⟨hp, hall⟩ := ih3 hnone
        refine ⟨by omega, fun k hk1 hk2 => ?_⟩
        rcases Nat.eq_or_lt_of_le hk1 with rfl | hk
        · exact hfalse
        · exact hall k (by omega) (by omega)

/-- C4: the waiter performs at most 30 one-second polls (a 30-second
ceiling); when it reports a terminal status it stopped at the earliest poll
that observed one of `passed`, `failed`, `completed`; and when the ceiling
is reached without a terminal status it ends without error after exactly 30
polls, with no poll having observed a terminal status. -/
theorem waitForRun_bounded (statusAt : Nat → String) :
    (waitForRun statusAt).1 ≤ 30 ∧
    (∀ s, (waitForRun statusAt).2 = some s →
      ∃ k, k < 30 ∧ (waitForRun statusAt).1 = k + 1 ∧ s = statusAt k ∧
        isTerminal s = true ∧ ∀ j, j < k → isTerminal (statusAt j) = false) ∧
    ((waitForRun statusAt).2 = none →
      (waitForRun statusAt).1 = 30 ∧ ∀ k, k < 30 → isTerminal (statusAt k) = false) := by
  obtain ⟨h1, h2, h3⟩ := waitForRunLoop_spec statusAt 30 0
  refine ⟨by simpa using h1, fun s hs => ?_, fun hnone => ?_⟩
  · obtain ⟨k, _, hk2, hk3, hk4, hk5, hk6⟩ := h2 s hs
    exact ⟨k, by omega, hk3, hk4, hk5, fun j hj => hk6 j (Nat.zero_le _) hj⟩
  · obtain ⟨hp, hall⟩ := h3 hnone
    exact ⟨by simpa using hp, fun k hk => hall k (Nat.zero_le _) (by omega)⟩

/-- Status source used by the waiter witness: `running` twice, then
`passed`. -/
def exampleStatusAt : Nat → String :=
  fun k => if k == 2 then "passed" else "running"

/-- C4 witness: with a run that turns `passed` at the third poll, the waiter
stops at the earliest terminal poll. -/
theorem waitForRun_bounded_witness :
    ∃ k, k < 30 ∧ (waitForRun exampleStatusAt).1 = k + 1 ∧ "passed" = exampleStatusAt k ∧
      isTerminal "passed" = true ∧ ∀ j, j < k → isTerminal (exampleStatusAt j) = false :=
  (waitForRun_bounded exampleStatusAt).2.1 "passed" rfl

theorem rowLe_trans (a b c : DbRow) (h1 : rowLe a b = true) (h2 : rowLe b c = true) :
    rowLe a c = true := by
  cases ha : a.completedAt <;> cases hb : b.completedAt <;> cases hc : c.completedAt <;>
    simp_all [rowLe] <;> (try split_ifs at *) <;> (try simp_all) <;> omega

theorem rowLe_total (a b : DbRow) : (rowLe a b || rowLe b a) = true := by
  cases ha : a.completedAt <;> cases hb : b.completedAt <;>
    simp_all [rowLe] <;> (try split_ifs at *) <;> (try simp_all) <;> omega

/-- Ordering on caller-facing items induced by the SQL `ORDER BY` of the
fallback query: completion time descending with absent completion times
last, start time descending as the secondary key. -/
def itemLeP (a b : ReportListItem) : Prop :=
  match a.completedAt, b.completedAt with
  | some x, some y =>
    if x = y then ∀ sa sb, a.startedAt = some sa → b.startedAt = some sb → sb ≤ sa
    else y < x
  | some _, none => True
  | none, some _ => False
  | none, none => ∀ sa sb, a.startedAt = some sa → b.startedAt = some sb → sb ≤ sa

theorem rowLe_toItem (a b : DbRow) (ua ub : String) (h : rowLe a b = true) :
    itemLeP (rowToItem a ua) (rowToItem b ub) := by
  cases ha : a.completedAt <;> cases hb : b.completedAt <;>
    simp_all [rowLe, itemLeP, rowToItem]

theorem fallbackItem_pos (hasReport : String → Bool) (r : DbRow)
    (hb : hasReport r.id = true) :
    fallbackItem hasReport r = some (rowToItem r (getReportUrl true r.id)) := by
  simp [fallbackItem, hb, getReportUrl, reportUrl_ne_empty r.id]

theorem fallbackItem_neg (hasReport : String → Bool) (r : DbRow)
    (hb : hasReport r.id = false) :
    fallbackItem hasReport r = none := by
  simp [fallbackItem, hb, getReportUrl]

/-- C9: `getReportsByProject` returns the indexed (ledger) results whenever
there is at least one; only when the indexed result is empty does it fall
back to the database query, whose results contain exactly the rows (project-
filtered when a project id is given) whose `getReportUrl` is non-empty, each
with its non-empty URL, ordered by completion time descending with start
time as the tie/fallback key. -/
theorem getReportsByProject_dual_path (dir : LedgerDir) (rows : List DbRow)
    (hasReport : String → Bool) (projectId : Option String) :
    (indexedResults dir projectId ≠ [] →
      getReportsByProject dir rows hasReport projectId = indexedResults dir projectId) ∧
    (indexedResults dir projectId = [] →
      getReportsByProject dir rows hasReport projectId =
        fallbackResults rows hasReport projectId) ∧
    (∀ item ∈ fallbackResults rows hasReport projectId,
      item.reportUrl ≠ "" ∧ ∃ r, r ∈ rows ∧ hasReport r.id = true ∧
        (∀ pid, projectId = some pid → r.projectId = pid) ∧
        item = rowToItem r (getReportUrl true r.id)) ∧
    (∀ r ∈ rows,
      (match projectId with | some pid => r.projectId == pid | none => true) = true →
      hasReport r.id = true →
      rowToItem r (getReportUrl true r.id) ∈ fallbackResults rows hasReport projectId) ∧
    (fallbackResults rows hasReport projectId).Pairwise itemLeP := by
  refine ⟨fun hne => ?_, fun heq => ?_, fun item him => ?_, fun r hr hp hb => ?_, ?_⟩
  · unfold getReportsByProject
    rw [if_pos (by simpa [List.length_pos] using hne)]
  · unfold getReportsByProject
    rw [if_neg (by simp [heq])]
  · unfold fallbackResults at him
    obtain ⟨r, hrmem, hfr⟩ := List.mem_filterMap.mp him
    have hrfil : r ∈ filteredRows rows projectId := List.mem_mergeSort.mp hrmem
    by_cases hb : hasReport r.id = true
    · rw [fallbackItem_pos hasReport r hb] at hfr
      have hitem : item = rowToItem r (getReportUrl true r.id) :=
        (Option.some.injEq _ _ ▸ hfr).symm
      subst hitem
      have hurl : (rowToItem r (getReportUrl true r.id)).reportUrl ≠ "" := by
        simp [rowToItem, getReportUrl]
        exact reportUrl_ne_empty r.id
      refine ⟨hurl, r, ?_, hb, ?_, rfl⟩
      · cases projectId with
        | none => exact hrfil
        | some pid => exact (List.mem_filter.mp hrfil).1
      · intro pid hpid
        subst hpid
        have := (List.mem_filter.mp hrfil).2
        simpa using this
    · rw [fallbackItem_neg hasReport r (by simpa using hb)] at hfr
      cases hfr
  · unfold fallbackResults
    refine List.mem_filterMap.mpr ⟨r, ?_, fallbackItem_pos hasReport r hb⟩
    refine List.mem_mergeSort.mpr ?_
    cases projectId with
    | none => exact hr
    | some pid => exact List.mem_filter.mpr ⟨hr, hp⟩
  · unfold fallbackResults
    have hsorted := @List.sorted_mergeSort DbRow rowLe
      (fun a b c => rowLe_trans a b c) (fun a b => rowLe_total a b)
      (filteredRows rows projectId)
    refine List.Pairwise.filterMap (fallbackItem hasReport) ?_ hsorted
    intro a a2 hle b hbmem b2 hb2mem
    by_cases hba : hasReport a.id = true
    · by_cases hba2 : hasReport a2.id = true
      · rw [fallbackItem_pos hasReport a hba] at hbmem
        rw [fallbackItem_pos hasReport a2 hba2] at hb2mem
        have h1 : b = rowToItem a (getReportUrl true a.id) := by
          simpa using hbmem.symm
        have h2 : b2 = rowToItem a2 (getReportUrl true a2.id) := by
          simpa using hb2mem.symm
        subst h1 h2
        exact rowLe_toItem a a2 _ _ hle
      · rw [fallbackItem_neg hasReport a2 (by simpa using hba2)] at hb2mem
        cases hb2mem
    · rw [fallbackItem_neg hasReport a (by simpa using hba)] at hbmem
      cases hbmem

/-- C9 witness: with one indexed entry the fast path is taken and the
fallback is not consulted. -/
theorem getReportsByProject_dual_path_witness :
    getReportsByProject
      [("p1", .stored (.parsable (.arr
        [⟨"run1", "p1", none, none, none, none, none, "u1", 0⟩])))]
      [] (fun _ => false) (some "p1") =
      indexedResults
        [("p1", .stored (.parsable (.arr
          [⟨"run1", "p1", none, none, none, none, none, "u1", 0⟩])))] (some "p1") :=
  (getReportsByProject_dual_path _ [] (fun _ => false) (some "p1")).1 (by decide)
